import Mathlib

/-!
# Verification of the performance benchmark / regression-detection subsystem

Shallow embedding of the performance tooling of the repository:

* `calculateStats` from `src/backend/__tests__/performance/utils/performance-metrics.ts`
  (the StatisticsEngine),
* `compareWithBaseline` / `compareReports`, `cleanupOldResults` and `exportToCSV`
  from the performance storage / comparison modules,
* `getLatestReport` from the standalone comparison CLI tool.

Modelling conventions:

* JavaScript numbers are idealized as exact rationals (`ℚ`).  Where a JS
  expression can produce `NaN`, `undefined` or an infinity, the value is
  modelled as `Option ℚ` with `none` standing for "not a finite number".
* `Math.sqrt` has no rational counterpart, so for the standard deviation we
  record the radicand (`variance`) exactly and phrase statements about the
  source's `stdDev = Math.sqrt(variance)` in terms of `Real.sqrt variance`.
* `Array.prototype.sort` with an ascending numeric comparator is modelled by
  `List.insertionSort (· ≤ ·)`: for rationals the sorted output is unique, so
  the choice of sorting algorithm is immaterial.
* File-system directories are modelled as lists of `(name, mtime)` entries;
  console output (warnings, logs) is side effect only and is dropped.
-/

namespace Perf

/-- JS division of an accumulated (finite) numerator by an array length `n`.
For `n = 0` the source divides by zero; in every use below the numerator is
then `0`, so the JS result is `NaN`, modelled as `none`. -/
def jsDivLen (a : ℚ) (n : ℕ) : Option ℚ :=
  if n = 0 then none else some (a / (n : ℚ))

/-- The record returned by `calculateStats` (interface `PerformanceStats` of
`performance-metrics.ts`).  Each field is `Option ℚ`; `none` models a JS `NaN`
or `undefined` (out-of-range array index).  The source returns
`stdDev = Math.sqrt(variance)`; we store the radicand `variance` exactly and
state `stdDev` facts via `Real.sqrt`. -/
structure CalcStats where
  mean : Option ℚ
  median : Option ℚ
  min : Option ℚ
  max : Option ℚ
  p95 : Option ℚ
  p99 : Option ℚ
  variance : Option ℚ
deriving Repr, DecidableEq

/-- `const sorted = [...durations].sort((a, b) => a - b)` — ascending sort of
a copy of the input. -/
def sortedDurations (durations : List ℚ) : List ℚ :=
  durations.insertionSort (· ≤ ·)

/-- Body of `calculateStats` after `sorted` has been computed.  Mirrors
`performance-metrics.ts` lines 102–118: `n = sorted.length`,
`mean = sorted.reduce((sum, val) => sum + val, 0) / n`,
`median = sorted[Math.floor(n / 2)]`, `min = sorted[0]`, `max = sorted[n - 1]`,
`p95 = sorted[Math.floor(n * 0.95)]`, `p99 = sorted[Math.floor(n * 0.99)]`,
`variance = sorted.reduce((sum, val) => sum + (val - mean) ** 2, 0) / n`.
`Math.floor (n * 0.95)` is the natural-number quotient `95 * n / 100` (and
likewise for `0.99` and `n / 2`). -/
def calcFromSorted (sorted : List ℚ) : CalcStats :=
  let n := sorted.length
  let mean := jsDivLen (sorted.foldl (· + ·) 0) n
  { mean := mean
    median := sorted[n / 2]?
    min := sorted[0]?
    max := sorted[n - 1]?
    p95 := sorted[95 * n / 100]?
    p99 := sorted[99 * n / 100]?
    variance := mean.bind fun m =>
      jsDivLen (sorted.foldl (fun sum val => sum + (val - m) ^ 2) 0) n }

/-- `calculateStats` from `performance-metrics.ts`. -/
def calculateStats (durations : List ℚ) : CalcStats :=
  calcFromSorted (sortedDurations durations)

/-! ## Reference summary, modelled from the spec's words (§4.2)

`sorted` = ascending sort of a copy, `n` = count, `mean = sum/n`,
`median = sorted[floor(n/2)]`, `min = sorted[0]`, `max = sorted[n-1]`,
`p95 = sorted[floor(n*0.95)]`, `p99 = sorted[floor(n*0.99)]`,
`stdDev = sqrt(mean of squared deviations from mean)` (divisor `n`).
These definitions follow the specification text and are compared with the
source-derived `calculateStats` in the refinement theorem below. -/

/-- Spec: `mean = sum / n`. -/
def refMean (l : List ℚ) : ℚ := (sortedDurations l).sum / (l.length : ℚ)

/-- Spec: `median = sorted[floor(n/2)]`. -/
def refMedian (l : List ℚ) : ℚ := (sortedDurations l).getD (l.length / 2) 0

/-- Spec: `min = sorted[0]`. -/
def refMin (l : List ℚ) : ℚ := (sortedDurations l).getD 0 0

/-- Spec: `max = sorted[n-1]`. -/
def refMax (l : List ℚ) : ℚ := (sortedDurations l).getD (l.length - 1) 0

/-- Spec: `p95 = sorted[floor(n*0.95)]`. -/
def refP95 (l : List ℚ) : ℚ := (sortedDurations l).getD (95 * l.length / 100) 0

/-- Spec: `p99 = sorted[floor(n*0.99)]`. -/
def refP99 (l : List ℚ) : ℚ := (sortedDurations l).getD (99 * l.length / 100) 0

/-- Spec: mean of squared deviations from the mean (population divisor `n`);
the spec's `stdDev` is the square root of this value. -/
def refVariance (l : List ℚ) : ℚ :=
  ((sortedDurations l).map (fun v => (v - refMean l) ^ 2)).sum / (l.length : ℚ)

/-- The full reference summary of the spec, with the `stdDev` radicand in the
`variance` slot. -/
def refStats (l : List ℚ) : CalcStats :=
  { mean := some (refMean l), median := some (refMedian l),
    min := some (refMin l), max := some (refMax l),
    p95 := some (refP95 l), p99 := some (refP99 l),
    variance := some (refVariance l) }

/-! ### Helper lemmas about the sorted copy and folds -/

theorem sortedDurations_sorted (l : List ℚ) :
    (sortedDurations l).Sorted (· ≤ ·) :=
  List.sorted_insertionSort _ l

theorem sortedDurations_perm (l : List ℚ) : List.Perm (sortedDurations l) l :=
  List.perm_insertionSort _ l

theorem sortedDurations_length (l : List ℚ) :
    (sortedDurations l).length = l.length :=
  (sortedDurations_perm l).length_eq

theorem foldl_add_map (g : ℚ → ℚ) :
    ∀ (l : List ℚ) (a : ℚ), l.foldl (fun s v => s + g v) a = a + (l.map g).sum
  | [], a => by simp
  | b :: l, a => by
    rw [List.foldl_cons, foldl_add_map g l (a + g b), List.map_cons,
      List.sum_cons, add_assoc]

theorem foldl_add (l : List ℚ) (a : ℚ) : l.foldl (· + ·) a = a + l.sum := by
  have h := foldl_add_map id l a
  simpa using h

theorem getD_eq_of_lt {L : List ℚ} {i : ℕ} (h : i < L.length) :
    L[i]? = some (L.getD i 0) := by
  rw [List.getD_eq_getElem?_getD, List.getElem?_eq_getElem h]
  rfl

theorem getD_eq_getElem_of_lt {L : List ℚ} {i : ℕ} (h : i < L.length) :
    L.getD i 0 = L[i] := by
  rw [List.getD_eq_getElem?_getD, List.getElem?_eq_getElem h]
  rfl

theorem getD_le_getD {L : List ℚ} (hs : L.Sorted (· ≤ ·)) {i j : ℕ}
    (hij : i ≤ j) (hj : j < L.length) : L.getD i 0 ≤ L.getD j 0 := by
  have hi : i < L.length := lt_of_le_of_lt hij hj
  rw [getD_eq_getElem_of_lt hi, getD_eq_getElem_of_lt hj]
  have := hs.rel_get_of_le (a := ⟨i, hi⟩) (b := ⟨j, hj⟩) hij
  simpa [List.get_eq_getElem] using this

theorem getD_head_le_of_mem {L : List ℚ} (hs : L.Sorted (· ≤ ·)) {x : ℚ}
    (hx : x ∈ L) : L.getD 0 0 ≤ x := by
  obtain ⟨⟨i, hi⟩, rfl⟩ := List.mem_iff_get.mp hx
  rw [List.get_eq_getElem, ← getD_eq_getElem_of_lt hi]
  exact getD_le_getD hs (Nat.zero_le i) hi

theorem le_getD_last_of_mem {L : List ℚ} (hs : L.Sorted (· ≤ ·)) {x : ℚ}
    (hx : x ∈ L) : x ≤ L.getD (L.length - 1) 0 := by
  obtain ⟨⟨i, hi⟩, rfl⟩ := List.mem_iff_get.mp hx
  rw [List.get_eq_getElem, ← getD_eq_getElem_of_lt hi]
  exact getD_le_getD hs (by omega) (by omega)

theorem calculateStats_eq (l : List ℚ) (h : l ≠ []) :
    calculateStats l = refStats l := by
  have hn : l.length ≠ 0 := fun h0 => h (List.length_eq_zero.mp h0)
  have hsl : (sortedDurations l).length = l.length := sortedDurations_length l
  have hb2 : l.length / 2 < (sortedDurations l).length := by rw [hsl]; omega
  have hb0 : 0 < (sortedDurations l).length := by rw [hsl]; omega
  have hbmax : l.length - 1 < (sortedDurations l).length := by rw [hsl]; omega
  have hb95 : 95 * l.length / 100 < (sortedDurations l).length := by
    rw [hsl, Nat.div_lt_iff_lt_mul (by norm_num)]
    omega
  have hb99 : 99 * l.length / 100 < (sortedDurations l).length := by
    rw [hsl, Nat.div_lt_iff_lt_mul (by norm_num)]
    omega
  have hmean : jsDivLen ((sortedDurations l).foldl (· + ·) 0) l.length
      = some (refMean l) := by
    simp only [jsDivLen, if_neg hn, foldl_add, zero_add]
    rfl
  simp only [calculateStats, calcFromSorted, refStats, hsl, CalcStats.mk.injEq]
  refine ⟨hmean, ?_, ?_, ?_, ?_, ?_, ?_⟩
  · exact getD_eq_of_lt hb2
  · exact getD_eq_of_lt hb0
  · exact getD_eq_of_lt hbmax
  · exact getD_eq_of_lt hb95
  · exact getD_eq_of_lt hb99
  · rw [hmean, Option.some_bind]
    simp only [jsDivLen, if_neg hn,
      foldl_add_map (fun val => (val - refMean l) ^ 2), zero_add]
    rfl

/-- **C3** — For every non-empty sequence of durations, `calculateStats`
returns exactly the reference summary of the spec (sorted ascending copy,
`mean = sum/n`, `median = sorted[floor(n/2)]`, `min = sorted[0]`,
`max = sorted[n-1]`, `p95 = sorted[floor(n*0.95)]`, `p99 = sorted[floor(n*0.99)]`,
population variance with divisor `n`, `stdDev` its square root); in
particular for a single sample all order statistics equal the single value
and the variance (hence `stdDev`) is `0`. -/
theorem calculateStats_matches_reference :
    (∀ l : List ℚ, l ≠ [] →
        calculateStats l = refStats l ∧
        Real.sqrt (((calculateStats l).variance).getD 0)
          = Real.sqrt (refVariance l)) ∧
    (∀ x : ℚ,
        calculateStats [x] =
          { mean := some x, median := some x, min := some x, max := some x,
            p95 := some x, p99 := some x, variance := some 0 }) := by
  constructor
  · intro l h
    refine ⟨calculateStats_eq l h, ?_⟩
    rw [calculateStats_eq l h]
    rfl
  · intro x
    rw [calculateStats_eq [x] (by simp)]
    simp only [refStats, refMean, refMedian, refMin, refMax, refP95, refP99,
      refVariance, sortedDurations, List.insertionSort, List.orderedInsert,
      CalcStats.mk.injEq]
    norm_num

/-- Witness for **C3**: the hypotheses hold and the theorem applies at the
concrete input `[3, 1]`. -/
theorem calculateStats_matches_reference_witness :
    ([(3 : ℚ), 1] ≠ []) ∧
      (calculateStats [(3 : ℚ), 1] = refStats [(3 : ℚ), 1] ∧
        Real.sqrt (((calculateStats [(3 : ℚ), 1]).variance).getD 0)
          = Real.sqrt (refVariance [(3 : ℚ), 1])) :=
  ⟨by simp, calculateStats_matches_reference.1 [(3 : ℚ), 1] (by simp)⟩

/-- **C2 counterexample** — on the empty input `calculateStats` does *not*
fail: it returns a `PerformanceStats` record (all fields non-finite:
`mean` and `stdDev` are `NaN`, the indexed statistics are `undefined`),
refuting the claim that an `InvalidInput` failure occurs. -/
theorem calculateStats_nil_returns_record :
    calculateStats [] =
      { mean := none, median := none, min := none, max := none,
        p95 := none, p99 := none, variance := none } := by
  rfl

/-- **C2 (amended)** — for the empty input sequence `calculateStats` raises
no error condition; every statistic field of the returned record is a
non-finite/undefined JS value (`none`). -/
theorem calculateStats_nil_all_fields_none :
    (calculateStats []).mean = none ∧ (calculateStats []).median = none ∧
      (calculateStats []).min = none ∧ (calculateStats []).max = none ∧
      (calculateStats []).p95 = none ∧ (calculateStats []).p99 = none ∧
      (calculateStats []).variance = none :=
  ⟨rfl, rfl, rfl, rfl, rfl, rfl, rfl⟩

theorem length_cast_pos {l : List ℚ} (h : l ≠ []) : (0 : ℚ) < (l.length : ℚ) := by
  have : 0 < l.length := List.length_pos.mpr h
  exact_mod_cast this

theorem refMin_le_refMean (l : List ℚ) (h : l ≠ []) : refMin l ≤ refMean l := by
  have hb : ∀ x ∈ sortedDurations l, refMin l ≤ x := fun x hx =>
    getD_head_le_of_mem (sortedDurations_sorted l) hx
  have hsum : (sortedDurations l).length • refMin l ≤ (sortedDurations l).sum :=
    List.card_nsmul_le_sum _ _ hb
  rw [sortedDurations_length l, nsmul_eq_mul] at hsum
  rw [refMean, le_div_iff₀ (length_cast_pos h), mul_comm]
  exact hsum

theorem refMean_le_refMax (l : List ℚ) (h : l ≠ []) : refMean l ≤ refMax l := by
  have hb : ∀ x ∈ sortedDurations l, x ≤ refMax l := by
    intro x hx
    have := le_getD_last_of_mem (sortedDurations_sorted l) hx
    rwa [sortedDurations_length l] at this
  have hsum : (sortedDurations l).sum ≤ (sortedDurations l).length • refMax l :=
    List.sum_le_card_nsmul _ _ hb
  rw [sortedDurations_length l, nsmul_eq_mul] at hsum
  rw [refMean, div_le_iff₀ (length_cast_pos h), mul_comm]
  exact hsum

theorem refVariance_nonneg (l : List ℚ) (h : l ≠ []) : 0 ≤ refVariance l := by
  refine div_nonneg (List.sum_nonneg ?_) (le_of_lt (length_cast_pos h))
  intro x hx
  obtain ⟨v, _, rfl⟩ := List.mem_map.mp hx
  positivity

/-- **C4** — for every non-empty input the summary satisfies
`min ≤ median ≤ p95 ≤ p99 ≤ max`, `min ≤ mean ≤ max` and `stdDev ≥ 0`
(in the model: the variance is non-negative, hence so is its square root,
which is the source's `stdDev`). -/
theorem calculateStats_summary_invariants :
    ∀ l : List ℚ, l ≠ [] →
      ∃ m md mn mx q95 q99 v : ℚ,
        calculateStats l =
          { mean := some m, median := some md, min := some mn, max := some mx,
            p95 := some q95, p99 := some q99, variance := some v } ∧
        mn ≤ md ∧ md ≤ q95 ∧ q95 ≤ q99 ∧ q99 ≤ mx ∧
        mn ≤ m ∧ m ≤ mx ∧ 0 ≤ v ∧ 0 ≤ Real.sqrt v := by
  intro l h
  have hn : l.length ≠ 0 := fun h0 => h (List.length_eq_zero.mp h0)
  have hsl : (sortedDurations l).length = l.length := sortedDurations_length l
  have hs := sortedDurations_sorted l
  refine ⟨refMean l, refMedian l, refMin l, refMax l, refP95 l, refP99 l,
    refVariance l, calculateStats_eq l h, ?_, ?_, ?_, ?_,
    refMin_le_refMean l h, refMean_le_refMax l h, refVariance_nonneg l h,
    Real.sqrt_nonneg _⟩
  · exact getD_le_getD hs (Nat.zero_le _) (by rw [hsl]; omega)
  · exact getD_le_getD hs (by omega) (by rw [hsl]; omega)
  · exact getD_le_getD hs (by omega) (by rw [hsl]; omega)
  · exact getD_le_getD hs (by omega) (by rw [hsl]; omega)

/-- Witness for **C4**: the theorem applied at the concrete input `[2, 1, 5]`. -/
theorem calculateStats_summary_invariants_witness :
    ([(2 : ℚ), 1, 5] ≠ []) ∧
      ∃ m md mn mx q95 q99 v : ℚ,
        calculateStats [(2 : ℚ), 1, 5] =
          { mean := some m, median := some md, min := some mn, max := some mx,
            p95 := some q95, p99 := some q99, variance := some v } ∧
        mn ≤ md ∧ md ≤ q95 ∧ q95 ≤ q99 ∧ q99 ≤ mx ∧
        mn ≤ m ∧ m ≤ mx ∧ 0 ≤ v ∧ 0 ≤ Real.sqrt v :=
  ⟨by simp, calculateStats_summary_invariants [(2 : ℚ), 1, 5] (by simp)⟩

/-- **C5** — `calculateStats` is invariant under permutation of its input:
permuted inputs yield identical summaries in all fields. -/
theorem calculateStats_perm_invariant :
    ∀ l l' : List ℚ, List.Perm l l' → calculateStats l = calculateStats l' := by
  intro l l' hp
  have hsorted : sortedDurations l = sortedDurations l' :=
    List.eq_of_perm_of_sorted
      (((sortedDurations_perm l).trans hp).trans (sortedDurations_perm l').symm)
      (sortedDurations_sorted l) (sortedDurations_sorted l')
  rw [calculateStats, calculateStats, hsorted]

/-- Witness for **C5**: the theorem applied to the concrete permutation
`[1, 2, 3] ~ [3, 1, 2]`. -/
theorem calculateStats_perm_invariant_witness :
    List.Perm [(1 : ℚ), 2, 3] [(3 : ℚ), 1, 2] ∧
      calculateStats [(1 : ℚ), 2, 3] = calculateStats [(3 : ℚ), 1, 2] :=
  ⟨by decide, calculateStats_perm_invariant _ _ (by decide)⟩

/-! ## Comparator (`compareWithBaseline` in the storage module, `compareReports`
in the CLI tool)

Statistics of persisted reports are parsed from JSON, which has no literals
for `NaN` or infinities, so they are modelled as plain rationals. -/

/-- Interface `PerformanceStats` as it appears in a report. -/
structure PerformanceStats where
  mean : ℚ
  median : ℚ
  min : ℚ
  max : ℚ
  p95 : ℚ
  p99 : ℚ
  stdDev : ℚ
deriving Repr, DecidableEq

/-- Interface `TestResult` (provenance fields `commit`/`branch` and the
optional metadata bag are irrelevant to the comparison and omitted). -/
structure TestResult where
  testName : String
  timestamp : String
  stats : PerformanceStats
  iterations : ℕ
deriving Repr, DecidableEq

/-- `environment` descriptor of a report. -/
structure Environment where
  node : String
  platform : String
  arch : String
deriving Repr, DecidableEq

/-- Interface `PerformanceReport`. -/
structure PerformanceReport where
  testSuite : String
  timestamp : String
  environment : Environment
  results : List TestResult
deriving Repr, DecidableEq

/-- The four relative changes of a `ComparisonResult`. -/
structure StatChanges where
  meanChange : ℚ
  medianChange : ℚ
  p95Change : ℚ
  p99Change : ℚ
deriving Repr, DecidableEq

/-- Interface `ComparisonResult`. -/
structure ComparisonResult where
  testName : String
  baseline : PerformanceStats
  current : PerformanceStats
  changes : StatChanges
  regression : Bool
  improvement : Bool
deriving Repr, DecidableEq

/-- `(current - baseline) / baseline`. -/
def relChange (current baseline : ℚ) : ℚ := (current - baseline) / baseline

/-- Loop body of `compareWithBaseline` / `compareReports` for one matched
baseline/current pair: the four relative changes,
`regression = meanChange > threshold` and
`improvement = meanChange < -threshold` (both strict). -/
def compareOne (baselineResult currentResult : TestResult) (threshold : ℚ) :
    ComparisonResult :=
  let meanChange := relChange currentResult.stats.mean baselineResult.stats.mean
  { testName := currentResult.testName
    baseline := baselineResult.stats
    current := currentResult.stats
    changes :=
      { meanChange := meanChange
        medianChange :=
          relChange currentResult.stats.median baselineResult.stats.median
        p95Change := relChange currentResult.stats.p95 baselineResult.stats.p95
        p99Change := relChange currentResult.stats.p99 baselineResult.stats.p99 }
    regression := decide (threshold < meanChange)
    improvement := decide (meanChange < -threshold) }

/-- `baseline.results.find((r) => r.testName === currentResult.testName)`. -/
def findBaseline (baseline : PerformanceReport) (name : String) :
    Option TestResult :=
  baseline.results.find? (fun r => r.testName == name)

/-- The comparison loop shared by `compareReports` (CLI tool, fixed
threshold 0.1) and `compareWithBaseline` (storage module, threshold
parameter): iterate over `current.results`; a test without a baseline
counterpart is skipped (`continue`, after a console warning). -/
def compareReports (baseline current : PerformanceReport) (threshold : ℚ) :
    List ComparisonResult :=
  current.results.filterMap fun currentResult =>
    match findBaseline baseline currentResult.testName with
    | none => none
    | some baselineResult => some (compareOne baselineResult currentResult threshold)

/-- The aligned baseline/current pairs, in the order of `current.results`. -/
def matchedPairs (baseline current : PerformanceReport) :
    List (TestResult × TestResult) :=
  current.results.filterMap fun currentResult =>
    (findBaseline baseline currentResult.testName).map fun b => (b, currentResult)

theorem compareReports_eq_map (b c : PerformanceReport) (t : ℚ) :
    compareReports b c t
      = (matchedPairs b c).map (fun p => compareOne p.1 p.2 t) := by
  simp only [compareReports, matchedPairs, List.map_filterMap]
  congr 1
  funext cur
  cases hfb : findBaseline b cur.testName <;> simp

theorem mem_matchedPairs {b c : PerformanceReport} {p : TestResult × TestResult}
    (hp : p ∈ matchedPairs b c) :
    p.1 ∈ b.results ∧ p.2 ∈ c.results ∧ p.1.testName = p.2.testName := by
  rw [matchedPairs] at hp
  obtain ⟨cur, hcur, heq⟩ := List.mem_filterMap.mp hp
  cases hfb : findBaseline b cur.testName with
  | none => rw [hfb] at heq; simp at heq
  | some bb =>
      rw [hfb] at heq
      simp only [Option.map_some'] at heq
      cases heq
      refine ⟨List.mem_of_find?_eq_some hfb, hcur, ?_⟩
      have hq := List.find?_some hfb
      simpa using hq

/-- **C6** — the threshold test is strict on both sides: `meanChange = +t`
is not a regression, `meanChange = -t` is not an improvement, and a matched
pair with identical non-zero means has `meanChange = 0` and is stable for
every positive threshold. -/
theorem compare_threshold_strict :
    ∀ (b c : TestResult) (t : ℚ), 0 < t →
      ((compareOne b c t).changes.meanChange = t →
        (compareOne b c t).regression = false) ∧
      ((compareOne b c t).changes.meanChange = -t →
        (compareOne b c t).improvement = false) ∧
      (b.stats.mean = c.stats.mean → b.stats.mean ≠ 0 →
        (compareOne b c t).changes.meanChange = 0 ∧
        (compareOne b c t).regression = false ∧
        (compareOne b c t).improvement = false) := by
  intro b c t ht
  simp only [compareOne, relChange, decide_eq_false_iff_not, not_lt]
  refine ⟨fun h => h.le, fun h => h.ge, fun hbc hb0 => ?_⟩
  rw [← hbc, sub_self, zero_div]
  exact ⟨rfl, le_of_lt ht, by simpa using le_of_lt ht⟩

/-- Witness for **C6**: with baseline mean `10`, current mean `11` and
threshold `1/10` the mean change is exactly the threshold and is not
classified a regression. -/
theorem compare_threshold_strict_witness :
    (0 : ℚ) < 1 / 10 ∧
      (compareOne ⟨"X", "t0", ⟨10, 10, 10, 10, 10, 10, 0⟩, 100⟩
          ⟨"X", "t1", ⟨11, 10, 10, 12, 10, 10, 0⟩, 100⟩ (1 / 10)).changes.meanChange
        = 1 / 10 ∧
      (compareOne ⟨"X", "t0", ⟨10, 10, 10, 10, 10, 10, 0⟩, 100⟩
          ⟨"X", "t1", ⟨11, 10, 10, 12, 10, 10, 0⟩, 100⟩ (1 / 10)).regression
        = false :=
  ⟨by norm_num, by norm_num [compareOne, relChange],
    (compare_threshold_strict _ _ (1 / 10) (by norm_num)).1
      (by norm_num [compareOne, relChange])⟩

/-- **C7** — the comparison iterates over `current.results` in order and
aligns by exact `testName` equality: the output is exactly one
`ComparisonResult` per matched pair, in the order of `current.results`
(conjunct 1); every matched pair takes its components from the two reports
and agrees on `testName` (conjunct 2); a current test without a baseline
counterpart contributes no pair — it is skipped (conjunct 3); every emitted
result carries the four relative changes `(current - baseline) / baseline`
(conjunct 4).  Baseline-only tests can contribute nothing since every pair
stems from `current.results`. -/
theorem compareReports_alignment :
    ∀ (b c : PerformanceReport) (t : ℚ),
      compareReports b c t
          = (matchedPairs b c).map (fun p => compareOne p.1 p.2 t) ∧
      (∀ p ∈ matchedPairs b c,
          p.1 ∈ b.results ∧ p.2 ∈ c.results ∧ p.1.testName = p.2.testName) ∧
      (∀ cur ∈ c.results, (∀ bb ∈ b.results, bb.testName ≠ cur.testName) →
          ∀ p ∈ matchedPairs b c, p.2 ≠ cur) ∧
      (∀ r ∈ compareReports b c t,
          ∃ bb cc, bb ∈ b.results ∧ cc ∈ c.results ∧
            bb.testName = cc.testName ∧ r.testName = cc.testName ∧
            r.baseline = bb.stats ∧ r.current = cc.stats ∧
            r.changes.meanChange = (cc.stats.mean - bb.stats.mean) / bb.stats.mean ∧
            r.changes.medianChange
              = (cc.stats.median - bb.stats.median) / bb.stats.median ∧
            r.changes.p95Change = (cc.stats.p95 - bb.stats.p95) / bb.stats.p95 ∧
            r.changes.p99Change = (cc.stats.p99 - bb.stats.p99) / bb.stats.p99) := by
  intro b c t
  refine ⟨compareReports_eq_map b c t, fun p hp => mem_matchedPairs hp,
    ?_, ?_⟩
  · intro cur _ hnone p hp hpc
    obtain ⟨h1, _, h3⟩ := mem_matchedPairs hp
    exact hnone p.1 h1 (hpc ▸ h3)
  · intro r hr
    rw [compareReports_eq_map b c t] at hr
    obtain ⟨p, hp, rfl⟩ := List.mem_map.mp hr
    obtain ⟨h1, h2, h3⟩ := mem_matchedPairs hp
    exact ⟨p.1, p.2, h1, h2, h3, rfl, rfl, rfl, rfl, rfl, rfl, rfl⟩

/-- Environment descriptor used by the concrete witness reports. -/
def envSample : Environment := ⟨"v20", "linux", "x64"⟩

/-- Baseline report of spec scenario B: tests `X` (mean 10) and `Y`. -/
def baselineReport : PerformanceReport :=
  ⟨"suite", "t0", envSample,
    [⟨"X", "t0", ⟨10, 10, 10, 10, 10, 10, 0⟩, 100⟩,
     ⟨"Y", "t0", ⟨5, 5, 5, 5, 5, 5, 0⟩, 100⟩]⟩

/-- Current report of spec scenario B: tests `X` (mean 13) and `Z`. -/
def currentReport : PerformanceReport :=
  ⟨"suite", "t1", envSample,
    [⟨"X", "t1", ⟨13, 10, 10, 14, 10, 10, 0⟩, 100⟩,
     ⟨"Z", "t1", ⟨5, 5, 5, 5, 5, 5, 0⟩, 100⟩]⟩

/-- Baseline-side test `X` of the witness reports. -/
def trXbase : TestResult := ⟨"X", "t0", ⟨10, 10, 10, 10, 10, 10, 0⟩, 100⟩

/-- Current-side test `X` of the witness reports. -/
def trXcur : TestResult := ⟨"X", "t1", ⟨13, 10, 10, 14, 10, 10, 0⟩, 100⟩

/-- Witness for **C7**: the theorem applied to the concrete scenario-B
reports; the matched pair for test `X` is in `matchedPairs` and satisfies
the alignment conjunct. -/
theorem compareReports_alignment_witness :
    (trXbase, trXcur) ∈ matchedPairs baselineReport currentReport ∧
      (trXbase ∈ baselineReport.results ∧ trXcur ∈ currentReport.results ∧
        trXbase.testName = trXcur.testName) :=
  ⟨by decide,
    (compareReports_alignment baselineReport currentReport (1 / 10)).2.1
      (trXbase, trXcur) (by decide)⟩

theorem compareOne_not_both {b c : TestResult} {t : ℚ} (ht : 0 ≤ t) :
    ¬((compareOne b c t).regression = true ∧
      (compareOne b c t).improvement = true) := by
  simp only [compareOne, decide_eq_true_eq]
  rintro ⟨h1, h2⟩
  linarith

theorem three_way_count :
    ∀ (cs : List ComparisonResult),
      (∀ r ∈ cs, ¬(r.regression = true ∧ r.improvement = true)) →
      (cs.filter (fun x => x.regression)).length
          + (cs.filter (fun x => x.improvement)).length
          + (cs.filter (fun x => !x.regression && !x.improvement)).length
        = cs.length
  | [], _ => rfl
  | r :: cs, h => by
    have ih := three_way_count cs (fun x hx => h x (List.mem_cons_of_mem r hx))
    have hr := h r (List.mem_cons_self r cs)
    cases hreg : r.regression <;> cases himp : r.improvement
    · simp only [List.filter_cons, hreg, himp]
      simp
      omega
    · simp only [List.filter_cons, hreg, himp]
      simp
      omega
    · simp only [List.filter_cons, hreg, himp]
      simp
      omega
    · exact absurd ⟨hreg, himp⟩ hr

/-- **C10** — for every baseline/current pair and non-negative threshold no
comparison result is both a regression and an improvement; each result is
classified as exactly one of regression / improvement / stable, and the
three counts sum to the number of compared tests. -/
theorem comparison_classification_partition :
    ∀ (b c : PerformanceReport) (t : ℚ), 0 ≤ t →
      (∀ r ∈ compareReports b c t,
          ¬(r.regression = true ∧ r.improvement = true) ∧
          (r.regression = true ∨ r.improvement = true ∨
            (!r.regression && !r.improvement) = true)) ∧
      ((compareReports b c t).filter (fun x => x.regression)).length
          + ((compareReports b c t).filter (fun x => x.improvement)).length
          + ((compareReports b c t).filter
              (fun x => !x.regression && !x.improvement)).length
        = (compareReports b c t).length := by
  intro b c t ht
  have hnb : ∀ r ∈ compareReports b c t,
      ¬(r.regression = true ∧ r.improvement = true) := by
    intro r hr
    rw [compareReports_eq_map b c t] at hr
    obtain ⟨p, _, rfl⟩ := List.mem_map.mp hr
    exact compareOne_not_both ht
  refine ⟨fun r hr => ⟨hnb r hr, ?_⟩, three_way_count _ hnb⟩
  cases hreg : r.regression <;> cases himp : r.improvement <;> simp

/-- Witness for **C10**: the partition counts at the concrete scenario-B
reports with threshold `1/10`. -/
theorem comparison_classification_partition_witness :
    (0 : ℚ) ≤ 1 / 10 ∧
      ((compareReports baselineReport currentReport (1 / 10)).filter
            (fun x => x.regression)).length
          + ((compareReports baselineReport currentReport (1 / 10)).filter
              (fun x => x.improvement)).length
          + ((compareReports baselineReport currentReport (1 / 10)).filter
              (fun x => !x.regression && !x.improvement)).length
        = (compareReports baselineReport currentReport (1 / 10)).length :=
  ⟨by norm_num,
    (comparison_classification_partition baselineReport currentReport (1 / 10)
      (by norm_num)).2⟩

/-! ## Results directory: the comparison CLI and `cleanupOldResults`

A directory is modelled as the list of its entries (file name and
modification time). -/

/-- A file of the results directory. -/
structure FileEntry where
  name : String
  mtime : ℤ
deriving Repr, DecidableEq

/-- `String.prototype.endsWith`, modelled on the character list. -/
def jsEndsWith (s suffix : String) : Bool :=
  suffix.data.isSuffixOf s.data

/-- Comparator `(a, b) => b.mtime.getTime() - a.mtime.getTime()`:
most recently modified first. -/
def mtimeDesc (a b : FileEntry) : Prop := b.mtime ≤ a.mtime

instance : DecidableRel mtimeDesc :=
  fun a b => inferInstanceAs (Decidable (b.mtime ≤ a.mtime))

/-- `.sort((a, b) => b.mtime.getTime() - a.mtime.getTime())`. -/
def sortByMtimeDesc (files : List FileEntry) : List FileEntry :=
  files.insertionSort mtimeDesc

/-- The CLI tool's report filter:
`f.endsWith('_report_') && f.endsWith('.json')` (part_000 line 76). -/
def isReportFile (name : String) : Bool :=
  jsEndsWith name "_report_" && jsEndsWith name ".json"

/-- `getLatestReport` of the comparison CLI: filter the directory with
`isReportFile`, sort by modification time descending, return the first
entry, or null for an empty result. -/
def getLatestReport (dir : List FileEntry) : Option FileEntry :=
  (sortByMtimeDesc (dir.filter (fun f => isReportFile f.name))).head?

theorem getLast_of_jsEndsWith {s suffix : String}
    (h : jsEndsWith s suffix = true) {ch : Char}
    (hc : suffix.data.getLast? = some ch) : s.data.getLast? = some ch := by
  rw [jsEndsWith] at h
  obtain ⟨t, ht⟩ := List.isSuffixOf_iff_suffix.mp h
  rw [← ht, List.getLast?_append, hc]
  rfl

/-- No file name can pass the CLI's report filter: a name ending in
`"_report_"` ends in `'_'`, a name ending in `".json"` ends in `'n'`. -/
theorem isReportFile_false (s : String) : isReportFile s = false := by
  rw [isReportFile]
  cases h1 : jsEndsWith s "_report_"
  · rfl
  · cases h2 : jsEndsWith s ".json"
    · rfl
    · exfalso
      have ha := getLast_of_jsEndsWith h1
        (show "_report_".data.getLast? = some (Char.ofNat 95) from rfl)
      have hb := getLast_of_jsEndsWith h2
        (show ".json".data.getLast? = some (Char.ofNat 110) from rfl)
      rw [ha] at hb
      simp at hb

/-- **C1** — contrary to the claim, `getLatestReport` never returns a path:
its filter demands a name that ends with both `"_report_"` and `".json"`,
which no string satisfies, so the filtered list is always empty and the
function returns null for every results directory — even one holding the
report files `savePerformanceReport` actually writes
(`<suite>_report_<timestamp>.json`).  The no-argument CLI path therefore
always exits 1 with "No performance results found". -/
theorem getLatestReport_always_none :
    ∀ dir : List FileEntry, getLatestReport dir = none := by
  intro dir
  rw [getLatestReport]
  have hfil : dir.filter (fun f => isReportFile f.name) = [] :=
    List.filter_eq_nil_iff.mpr (fun a _ => by simp [isReportFile_false])
  rw [hfil]
  rfl

/-- `cleanupOldResults`'s result-file filter:
`f.endsWith('.json') && f !== 'baseline.json'`. -/
def isResultFile (f : FileEntry) : Bool :=
  jsEndsWith f.name ".json" && f.name != "baseline.json"

/-- The files `cleanupOldResults keepLast` unlinks: every non-baseline JSON
file beyond the `keepLast` first in modification-time-descending order
(`files.slice(keepLast)`). -/
def cleanupDeletes (keepLast : ℕ) (dir : List FileEntry) : List FileEntry :=
  (sortByMtimeDesc (dir.filter isResultFile)).drop keepLast

/-- The directory contents after `cleanupOldResults keepLast`: every entry
except the unlinked ones. -/
def cleanupOldResults (keepLast : ℕ) (dir : List FileEntry) : List FileEntry :=
  dir.filter (fun f => decide (f ∉ cleanupDeletes keepLast dir))

theorem mem_cleanup_iff {keepLast : ℕ} {dir : List FileEntry} {f : FileEntry} :
    f ∈ cleanupOldResults keepLast dir ↔
      f ∈ dir ∧ f ∉ cleanupDeletes keepLast dir := by
  simp [cleanupOldResults]

theorem isResultFile_of_mem_deletes {keepLast : ℕ} {dir : List FileEntry}
    {g : FileEntry} (hg : g ∈ cleanupDeletes keepLast dir) :
    isResultFile g = true := by
  have h1 : g ∈ sortByMtimeDesc (dir.filter isResultFile) :=
    List.drop_subset _ _ hg
  have h2 : g ∈ dir.filter isResultFile :=
    ((List.perm_insertionSort _ _).mem_iff).mp h1
  exact (List.mem_filter.mp h2).2

/-- **C8** — `cleanupOldResults keepLast` deletes exactly the non-baseline
JSON result files beyond the `keepLast` first in
modification-time-descending order, and leaves every other file unchanged:
(1) files not matching the result filter survive; (2) in particular
`baseline.json` always survives; (3) no file is added; (4) a file of the
directory is removed iff it is beyond the `keepLast` most recent result
files; (5) the surviving result files are exactly the `keepLast` most
recent ones.  (Modification times of the result files are assumed pairwise
distinct, so that "most recently modified" is unambiguous.) -/
theorem cleanupOldResults_spec :
    ∀ (keepLast : ℕ) (dir : List FileEntry), dir.Nodup →
      ((dir.filter isResultFile).map (fun f => f.mtime)).Nodup →
      (∀ f ∈ dir, isResultFile f = false →
          f ∈ cleanupOldResults keepLast dir) ∧
      (∀ f ∈ dir, f.name = "baseline.json" →
          f ∈ cleanupOldResults keepLast dir) ∧
      (∀ f ∈ cleanupOldResults keepLast dir, f ∈ dir) ∧
      (∀ f ∈ dir, (f ∉ cleanupOldResults keepLast dir ↔
          f ∈ cleanupDeletes keepLast dir)) ∧
      (∀ f, (f ∈ cleanupOldResults keepLast dir ∧ isResultFile f = true) ↔
          f ∈ (sortByMtimeDesc (dir.filter isResultFile)).take keepLast) := by
  intro keepLast dir hnd _hmt
  have hperm : List.Perm (sortByMtimeDesc (dir.filter isResultFile))
      (dir.filter isResultFile) := List.perm_insertionSort _ _
  have hSnodup : (sortByMtimeDesc (dir.filter isResultFile)).Nodup :=
    hperm.nodup_iff.mpr (hnd.filter _)
  have hsplit : (sortByMtimeDesc (dir.filter isResultFile)).take keepLast
      ++ cleanupDeletes keepLast dir
      = sortByMtimeDesc (dir.filter isResultFile) :=
    List.take_append_drop keepLast _
  have hdisj : List.Disjoint
      ((sortByMtimeDesc (dir.filter isResultFile)).take keepLast)
      (cleanupDeletes keepLast dir) := by
    have := hSnodup
    rw [← hsplit] at this
    exact (List.nodup_append.mp this).2.2
  have hout : ∀ f ∈ dir, isResultFile f = false →
      f ∈ cleanupOldResults keepLast dir := by
    intro f hf hres
    refine mem_cleanup_iff.mpr ⟨hf, fun hdel => ?_⟩
    rw [isResultFile_of_mem_deletes hdel] at hres
    cases hres
  refine ⟨hout, ?_, ?_, ?_, ?_⟩
  · intro f hf hname
    refine hout f hf ?_
    rw [isResultFile, hname]
    simp
  · intro f hf
    exact (mem_cleanup_iff.mp hf).1
  · intro f hf
    constructor
    · intro hnc
      by_contra hnd2
      exact hnc (mem_cleanup_iff.mpr ⟨hf, hnd2⟩)
    · intro hdel hc
      exact (mem_cleanup_iff.mp hc).2 hdel
  · intro f
    constructor
    · rintro ⟨hc, hres⟩
      obtain ⟨hf, hnd2⟩ := mem_cleanup_iff.mp hc
      have hfil : f ∈ dir.filter isResultFile := List.mem_filter.mpr ⟨hf, hres⟩
      have hS : f ∈ sortByMtimeDesc (dir.filter isResultFile) :=
        hperm.mem_iff.mpr hfil
      rw [← hsplit] at hS
      rcases List.mem_append.mp hS with h | h
      · exact h
      · exact absurd h hnd2
    · intro ht
      have hS : f ∈ sortByMtimeDesc (dir.filter isResultFile) :=
        List.take_subset _ _ ht
      have hfil : f ∈ dir.filter isResultFile := hperm.mem_iff.mp hS
      obtain ⟨hf, hres⟩ := List.mem_filter.mp hfil
      exact ⟨mem_cleanup_iff.mpr ⟨hf, fun hdel => hdisj ht hdel⟩, hres⟩

/-- Results directory used by the `cleanupOldResults` witness: a baseline
plus five saved reports with distinct modification times. -/
def dirSample : List FileEntry :=
  [⟨"baseline.json", 0⟩, ⟨"suite_report_1.json", 1⟩,
   ⟨"suite_report_2.json", 2⟩, ⟨"suite_report_3.json", 3⟩,
   ⟨"suite_report_4.json", 4⟩, ⟨"suite_report_5.json", 5⟩]

/-- Witness for **C8**: over 5 saved reports and the baseline with
`keepLast = 2`, exactly the 2 most recent reports and the baseline remain,
and the theorem applies to keep the baseline. -/
theorem cleanupOldResults_spec_witness :
    dirSample.Nodup ∧
      ((dirSample.filter isResultFile).map (fun f => f.mtime)).Nodup ∧
      cleanupOldResults 2 dirSample =
        [⟨"baseline.json", 0⟩, ⟨"suite_report_4.json", 4⟩,
         ⟨"suite_report_5.json", 5⟩] ∧
      (⟨"baseline.json", 0⟩ : FileEntry) ∈ cleanupOldResults 2 dirSample :=
  ⟨by decide, by decide, by decide,
    (cleanupOldResults_spec 2 dirSample (by decide) (by decide)).2.1
      ⟨"baseline.json", 0⟩ (by decide) rfl⟩

/-! ## Exporter (`exportToCSV`)

The exporter formats in-memory reports, whose statistics come straight from
`calculateStats` and can therefore be non-finite; statistic values are
`Option ℚ` with `none` for a non-finite number.  `Number.prototype.toFixed`
renders `NaN` as the string `"NaN"`.  Only the CSV text is modelled; writing
the file and logging are side effects outside the model. -/

/-- Two-digit rendering of the fractional part. -/
def pad2 (n : ℕ) : String := if n < 10 then "0" ++ toString n else toString n

/-- `x.toFixed(2)`, idealized to exact rationals: a non-finite value prints
as `"NaN"`; a finite value `±a/d` is rounded to two decimals, half away from
zero (`(200 * a + d) / (2 * d)` is `⌊100 * (a/d) + 1/2⌋` for natural `a`). -/
def toFixed2 (x : Option ℚ) : String :=
  match x with
  | none => "NaN"
  | some q =>
      let a : ℕ := q.num.natAbs
      let d : ℕ := q.den
      let c : ℕ := (200 * a + d) / (2 * d)
      (if q.num < 0 then "-" else "")
        ++ toString (c / 100) ++ "." ++ pad2 (c % 100)

/-- In-memory statistics record handed to the exporter. -/
structure MemStats where
  mean : Option ℚ
  median : Option ℚ
  min : Option ℚ
  max : Option ℚ
  p95 : Option ℚ
  p99 : Option ℚ
  stdDev : Option ℚ
deriving Repr, DecidableEq

/-- In-memory `TestResult` handed to the exporter. -/
structure MemTestResult where
  testName : String
  timestamp : String
  stats : MemStats
  iterations : ℕ
deriving Repr, DecidableEq

/-- In-memory `PerformanceReport` handed to the exporter (the environment
descriptor is unused by `exportToCSV` and omitted). -/
structure MemReport where
  testSuite : String
  timestamp : String
  results : List MemTestResult
deriving Repr, DecidableEq

/-- The CSV header line of `exportToCSV`. -/
def csvHeader : String :=
  "Test Name,Timestamp,Mean (ms),Median (ms),Min (ms),Max (ms),P95 (ms),P99 (ms),Std Dev (ms),Iterations"

/-- One data row: the joined field list
`[testName, timestamp, mean.toFixed(2), …, stdDev.toFixed(2), iterations]`. -/
def csvRow (r : MemTestResult) : String :=
  String.intercalate ","
    [r.testName, r.timestamp, toFixed2 r.stats.mean, toFixed2 r.stats.median,
     toFixed2 r.stats.min, toFixed2 r.stats.max, toFixed2 r.stats.p95,
     toFixed2 r.stats.p99, toFixed2 r.stats.stdDev, toString r.iterations]

/-- `exportToCSV`: the header followed by one row per result, joined with
newlines (`lines.join('\n')`). -/
def exportToCSV (report : MemReport) : String :=
  String.intercalate "\n" (csvHeader :: report.results.map csvRow)

/-- The exporter-side result with a `NaN` mean used by the C9 theorems. -/
def nanResult : MemTestResult :=
  ⟨"T", "2024-01-01", ⟨none, some 1, some 1, some 1, some 1, some 1, some 0⟩, 10⟩

/-- A report containing `nanResult`. -/
def nanReport : MemReport := ⟨"suite", "t0", [nanResult]⟩

/-- **C9 counterexample** — `exportToCSV` performs no input validation: on a
report whose only result has a `NaN` mean it does not fail; it returns the
CSV text with the literal `NaN` coerced into the mean column of the row. -/
theorem exportToCSV_emits_nan :
    exportToCSV nanReport
      = "Test Name,Timestamp,Mean (ms),Median (ms),Min (ms),Max (ms),P95 (ms),P99 (ms),Std Dev (ms),Iterations\nT,2024-01-01,NaN,1.00,1.00,1.00,1.00,1.00,0.00,10" := by
  rfl

/-- **C9 (amended)** — the exporter treats a non-finite statistic as
ordinary data, not as an error: for every report and every contained result
with a non-finite mean, `exportToCSV` still returns the full header-plus-rows
text, and that result's row renders the mean column as the text `"NaN"`. -/
theorem exportToCSV_nan_row :
    ∀ (rep : MemReport) (r : MemTestResult), r ∈ rep.results →
      r.stats.mean = none →
      exportToCSV rep
          = String.intercalate "\n" (csvHeader :: rep.results.map csvRow) ∧
      csvRow r
          = String.intercalate ","
              [r.testName, r.timestamp, "NaN", toFixed2 r.stats.median,
               toFixed2 r.stats.min, toFixed2 r.stats.max,
               toFixed2 r.stats.p95, toFixed2 r.stats.p99,
               toFixed2 r.stats.stdDev, toString r.iterations] ∧
      csvRow r ∈ rep.results.map csvRow := by
  intro rep r hr hmean
  refine ⟨rfl, ?_, List.mem_map_of_mem _ hr⟩
  rw [csvRow, hmean]
  rfl

/-- Witness for **C9 (amended)**: the theorem applied to the concrete
`nanReport`. -/
theorem exportToCSV_nan_row_witness :
    nanResult ∈ nanReport.results ∧ nanResult.stats.mean = none ∧
      csvRow nanResult ∈ nanReport.results.map csvRow :=
  ⟨by decide, rfl,
    (exportToCSV_nan_row nanReport nanResult (by decide) rfl).2.2⟩

end Perf
